import Mathlib

/-!
The vibe-deploy webhook service: deployment orchestration and proxy synchronisation

A shallow embedding of `webhook-service/main.go`.

* Go `string` values are modelled as `List Char` (`Str`): the sequence of code
  points of a valid UTF-8 text.  `strings.Split`, `strings.HasPrefix`,
  `strings.HasSuffix`, `strings.Contains`, `strings.TrimSpace`,
  `strings.TrimPrefix` and `strings.TrimSuffix` are given by their documented
  meaning on such sequences.
* Files are modelled by their text.  The registry step `upsert` takes the
  outcomes of its file operations (read, open for append, write) as a
  parameter and returns the error and the text the file holds afterwards;
  `generateCaddyfile` is the function from the text read to the text written.
* The directory of a site is a `WorkTree`: the outcome of `os.Stat` on each
  file name below it, and the outcome of writing the build descriptor.
* The container engine reached through `exec.Command("docker", ...)` is a
  parameter of `deployDocker`: any state type with any response to every
  command.  `deployDocker` returns the error, the commands it ran with their
  responses, and the engine state it leaves.
* `docker` is one such engine, a model of the Docker behaviour the service
  relies on, in which any command may be refused and a start may fail at any
  time; the claims about which containers exist are proved on it.
-/

namespace VibeDeploy

/-- Go `string`: a sequence of code points. -/
abbrev Str := List Char

/-! ## The `strings` functions used by the service -/

/-- Go's `unicode.IsSpace`: the white space characters of Go (`'\t'`, `'\n'`, `'\v'`,
`'\f'`, `'\r'`, `' '`, U+0085, U+00A0 and the characters of category Z). -/
def isSpace (c : Char) : Bool :=
  let n := c.toNat
  (9 ≤ n && n ≤ 13) || n = 32 || n = 0x85 || n = 0xA0 || n = 0x1680 ||
  (0x2000 ≤ n && n ≤ 0x200A) || n = 0x2028 || n = 0x2029 || n = 0x202F ||
  n = 0x205F || n = 0x3000

/-- Drops the leading white space of a text. -/
def trimLeft (s : Str) : Str := s.dropWhile isSpace

/-- Drops the trailing white space of a text. -/
def trimRight (s : Str) : Str := (s.reverse.dropWhile isSpace).reverse

/-- Go's `strings.TrimSpace`: the text without its leading and trailing white space. -/
def trimSpace (s : Str) : Str := trimRight (trimLeft s)

/-- Go's `strings.HasPrefix(s, pre)`. -/
def hasPrefix (s pre : Str) : Bool := pre.isPrefixOf s

/-- Go's `strings.HasSuffix(s, suf)`. -/
def hasSuffix (s suf : Str) : Bool := suf.isSuffixOf s

/-- Go's `strings.TrimPrefix(s, pre)`. -/
def trimPrefix (s pre : Str) : Str :=
  if hasPrefix s pre then s.drop pre.length else s

/-- Go's `strings.TrimSuffix(s, suf)`. -/
def trimSuffix (s suf : Str) : Str :=
  if hasSuffix s suf then s.take (s.length - suf.length) else s

/-- Go's `strings.Contains(s, sub)`: some suffix of `s` starts with `sub`. -/
def stringsContains : Str → Str → Bool
  | [], sub => sub.isPrefixOf []
  | c :: cs, sub => sub.isPrefixOf (c :: cs) || stringsContains cs sub

/-- Go's `strings.Split(s, "\n")`: the lines of a text; the empty text has one
empty line. -/
def splitLines : Str → List Str
  | [] => [[]]
  | c :: cs =>
    if c = '\n' then [] :: splitLines cs
    else
      match splitLines cs with
      | [] => [[c]]
      | l :: ls => (c :: l) :: ls

/-! ## Application types (`main.go` lines 24-31, 420-431) -/

/-- Go `type AppType string`. -/
abbrev AppType := Str

/-- The constant `AppTypeStatic`. -/
def AppTypeStatic : AppType := "static".toList
/-- The constant `AppTypeNode`. -/
def AppTypeNode : AppType := "node".toList
/-- The constant `AppTypeGo`. -/
def AppTypeGo : AppType := "go".toList
/-- The constant `AppTypePython`. -/
def AppTypePython : AppType := "python".toList

/-- Function `detectPort` (lines 420-431): the listening port of a classification; the
directory argument is not used by the code. -/
def detectPort (_deployDir : Str) (appType : AppType) : Str :=
  if appType = AppTypeNode then "3000".toList
  else if appType = AppTypeGo then "8080".toList
  else if appType = AppTypePython then "8000".toList
  else "80".toList

/-! ## The site registry (`updateCaddyConfig`, lines 130-165) -/

/-- The record text of lines 151-152:
`fmt.Sprintf("\n  %s:\n    container: %s\n    port: %s\n    type: %s\n", ...)`. -/
def newEntry (hostname containerName port : Str) (appType : AppType) : Str :=
  "\n  ".toList ++ hostname ++ ":\n    container: ".toList ++ containerName ++
  "\n    port: ".toList ++ port ++ "\n    type: ".toList ++ appType ++ "\n".toList

/-- The outcomes of the file operations of the registry step, which the
service does not decide: the error of `os.ReadFile` (line 143), the error of
`os.OpenFile` for appending (line 154), and for `f.WriteString` (line 160) the
number of characters that reached the file before it failed, with its error.
`none` stands for Go's `nil`. -/
structure RegistryIO where
  readErr : Option Str
  openErr : Option Str
  writeErr : Option (Nat × Str)

/-- The file operations all succeed. -/
def RegistryIO.ok : RegistryIO :=
  { readErr := none, openErr := none, writeErr := none }

/-- What the registry step leaves: the error it returns (`none` when
`updateCaddyConfig` goes on to line 167) and the text `sites.yaml` holds. -/
structure Upserted where
  err : Option Str
  text : Str
deriving DecidableEq

/-- The registry step of `updateCaddyConfig` (lines 143-165) on `sites.yaml`
holding `content`.  A failed read returns at line 145; the record is appended
only when `strings.Contains(content, hostname)` is false; a failed open returns
at line 156 with the file as it was, a failed write at line 161 with the part
of the record that was written. -/
def upsert (io : RegistryIO) (content hostname containerName port : Str)
    (appType : AppType) : Upserted :=
  match io.readErr with
  | some e => { err := some ("failed to read sites.yaml: ".toList ++ e), text := content }
  | none =>
    if !stringsContains content hostname then
      match io.openErr with
      | some e => { err := some ("failed to open sites.yaml: ".toList ++ e), text := content }
      | none =>
        match io.writeErr with
        | some (n, e) =>
          { err := some ("failed to write to sites.yaml: ".toList ++ e)
            text := content ++ (newEntry hostname containerName port appType).take n }
        | none =>
          { err := none, text := content ++ newEntry hostname containerName port appType }
    else { err := none, text := content }

/-- Line 136: `fmt.Sprintf("%s.%s", containerName, domain)`, where `domain` is
the value of the environment variable `DOMAIN`, or `tomtom.fyi` when that is
empty (lines 131-134). -/
def siteHostname (domainEnv containerName : Str) : Str :=
  let domain := if domainEnv = [] then "tomtom.fyi".toList else domainEnv
  containerName ++ ".".toList ++ domain

/-- Lines 131-165 of `updateCaddyConfig`: the registry step for the deploy of
`containerName`. -/
def updateCaddyConfigRegistry (io : RegistryIO) (domainEnv containerName : Str)
    (appType : AppType) (content : Str) : Upserted :=
  upsert io content (siteHostname domainEnv containerName) containerName
    (detectPort [] appType) appType

/-! ## The proxy configuration (`generateCaddyfile`, lines 183-247) -/

/-- The header of lines 194-206. -/
def caddyHeader : Str :=
  ("# Auto-generated Caddyfile for VibeDeploy\n" ++
   "# DO NOT EDIT MANUALLY - Managed by webhook service\n" ++
   "\n" ++
   "\x7b\n" ++
   "    admin off\n" ++
   "    auto_https off\n" ++
   "    log \x7b\n" ++
   "        output file /var/log/caddy/access.log\n" ++
   "        format json\n" ++
   "    \x7d\n" ++
   "\x7d\n" ++
   "\n").toList

/-- The routing block of lines 221-222 and 236-237:
`fmt.Sprintf("\n%s, www.%s {\n    reverse_proxy %s:%s\n}\n", ...)`. -/
def routeBlock (domain container port : Str) : Str :=
  "\n".toList ++ domain ++ ", www.".toList ++ domain ++
  " \x7b\n    reverse_proxy ".toList ++ container ++ ":".toList ++ port ++
  "\n\x7d\n".toList

/-- The variables of the scan loop of `generateCaddyfile`. -/
structure ScanState where
  currentDomain : Str
  container : Str
  port : Str
  output : Str
deriving DecidableEq, Repr

/-- The condition of lines 219 and 235. -/
def ScanState.complete (st : ScanState) : Bool :=
  st.currentDomain ≠ [] && st.container ≠ [] && st.port ≠ []

/-- The output with the pending record written, when it is complete
(lines 219-223 and 235-238). -/
def ScanState.flush (st : ScanState) : Str :=
  if st.complete then st.output ++ routeBlock st.currentDomain st.container st.port
  else st.output

/-- One iteration of the loop of lines 214-232. -/
def scanLine (st : ScanState) (rawLine : Str) : ScanState :=
  let line := trimSpace rawLine
  if hasSuffix line ":".toList && hasPrefix line "  ".toList &&
      !hasPrefix line "    ".toList then
    { currentDomain := trimSuffix (trimSpace line) ":".toList
      container := []
      port := []
      output := st.flush }
  else if hasPrefix line "container:".toList then
    { st with container := trimSpace (trimPrefix line "container:".toList) }
  else if hasPrefix line "port:".toList then
    { st with port := trimSpace (trimPrefix line "port:".toList) }
  else st

/-- The variables before the first line is read (lines 194-212). -/
def scanStart : ScanState :=
  { currentDomain := [], container := [], port := [], output := caddyHeader }

/-- The variables after the first `k` lines of the registry text. -/
def scanFirst (k : Nat) (content : Str) : ScanState :=
  ((splitLines content).take k).foldl scanLine scanStart

/-- The scan of lines 209-232 over the whole registry text. -/
def scanRegistry (content : Str) : ScanState :=
  (splitLines content).foldl scanLine scanStart

/-- Function `generateCaddyfile` (lines 183-247) as a function of the text of
`sites.yaml`: the text written to the Caddyfile. -/
def generateCaddyfile (content : Str) : Str :=
  (scanRegistry content).flush


/-! ## The working tree of a site -/

/-- The three outcomes of `os.Stat` the service tells apart: no error,
an error for which `os.IsNotExist` holds, any other error. -/
inductive StatResult where
  | found
  | notExist
  | failed
deriving DecidableEq, Repr

/-- What the service sees of the directory `deployDir` of a site:
`stat name` is the outcome of `os.Stat(filepath.Join(deployDir, name))`, and
`writeErr` is the error of `os.WriteFile(filepath.Join(deployDir, "Dockerfile"), ...)`
when that write fails. -/
structure WorkTree where
  stat : Str → StatResult
  writeErr : Option Str

/-- The build descriptor chosen by the `switch` of `generateDockerfile`
(lines 268-304); `none` is the `default` case. -/
def dockerfileContent (appType : AppType) : Option Str :=
  if appType = AppTypeNode then
    some ("FROM node:18-alpine\n" ++
      "WORKDIR /app\n" ++
      "COPY package*.json ./\n" ++
      "RUN npm install --production\n" ++
      "COPY . .\n" ++
      "EXPOSE 3000\n" ++
      "CMD [\"npm\", \"start\"]\n").toList
  else if appType = AppTypeGo then
    some ("FROM golang:1.21-alpine AS builder\n" ++
      "WORKDIR /app\n" ++
      "COPY go.* ./\n" ++
      "RUN go mod download\n" ++
      "COPY . .\n" ++
      "RUN go build -o main .\n" ++
      "\n" ++
      "FROM alpine:latest\n" ++
      "RUN apk --no-cache add ca-certificates\n" ++
      "WORKDIR /root/\n" ++
      "COPY --from=builder /app/main .\n" ++
      "EXPOSE 8080\n" ++
      "CMD [\"./main\"]\n").toList
  else if appType = AppTypePython then
    some ("FROM python:3.11-slim\n" ++
      "WORKDIR /app\n" ++
      "COPY requirements.txt* ./\n" ++
      "RUN pip install --no-cache-dir -r requirements.txt || true\n" ++
      "COPY . .\n" ++
      "EXPOSE 8000\n" ++
      "CMD [\"python\", \"main.py\"]\n").toList
  else none

/-- Function `generateDockerfile` (lines 265-317): the error message when writing the
descriptor fails, otherwise the text written to `Dockerfile`, if any. -/
def generateDockerfile (tree : WorkTree) (appType : AppType) : Except Str (Option Str) :=
  match dockerfileContent appType with
  | none => .ok none
  | some content =>
    if tree.stat "Dockerfile".toList = .notExist then
      match tree.writeErr with
      | some e => .error ("failed to write Dockerfile: ".toList ++ e)
      | none => .ok (some content)
    else .ok none

/-! ## The container engine -/

/-- The commands `deployDocker` runs through `exec.Command`. -/
inductive Cmd where
  /-- Command `docker inspect <name>` -/
  | inspect (name : Str)
  /-- Command `docker stop <name>` -/
  | stop (name : Str)
  /-- Command `docker rm <name>` -/
  | rm (name : Str)
  /-- Command `docker run -d --name <name> --network vibe-deploy_web
  -v <dir>:/usr/share/nginx/html:ro nginx:alpine` -/
  | runStatic (name dir : Str)
  /-- Command `docker build -t <image> <dir>` -/
  | build (image dir : Str)
  /-- Command `docker run -d --name <name> --network vibe-deploy_web <image>` -/
  | run (name image : Str)
  /-- Command `sleep 2` -/
  | sleep
  /-- Command `docker inspect -f {{.State.Running}} <name>` -/
  | inspectRunning (name : Str)
deriving DecidableEq, Repr

/-- The container a command stops, removes or starts. -/
def Cmd.target : Cmd → Option Str
  | .stop n => some n
  | .rm n => some n
  | .runStatic n _ => some n
  | .run n _ => some n
  | _ => none

/-- Whether a command is an image build. -/
def Cmd.isBuild : Cmd → Bool
  | .build _ _ => true
  | _ => false

/-- What a finished command gives back: its error (`none` for Go's `nil`) and
its combined output. -/
structure Resp where
  err : Option Str
  out : Str
deriving DecidableEq, Repr

/-- A container engine: a state, and for each command the response and the
state it leaves. -/
structure Engine (σ : Type) where
  exec : Cmd → σ → Resp × σ

/-- One executed command: the command, its response, the engine state after. -/
structure Event (σ : Type) where
  cmd : Cmd
  resp : Resp
  after : σ

/-- The engine state together with the commands executed so far. -/
structure Ctx (σ : Type) where
  state : σ
  events : List (Event σ)

/-- Runs one command (`cmd.CombinedOutput()`). -/
def call {σ : Type} (E : Engine σ) (c : Cmd) (ctx : Ctx σ) : Resp × Ctx σ :=
  let r := E.exec c ctx.state
  (r.1, { state := r.2, events := ctx.events ++ [{ cmd := c, resp := r.1, after := r.2 }] })

/-- Runs one command and drops its result (`exec.Command(...).Run()` as a
statement). -/
def callIgnore {σ : Type} (E : Engine σ) (c : Cmd) (ctx : Ctx σ) : Ctx σ :=
  (call E c ctx).2

/-- Runs `docker stop <name>` then `docker rm <name>`, results dropped. -/
def stopAndRemove {σ : Type} (E : Engine σ) (name : Str) (ctx : Ctx σ) : Ctx σ :=
  callIgnore E (.rm name) (callIgnore E (.stop name) ctx)

/-! ## The container lifecycle (`deployDocker`, lines 319-418) -/

/-- The errors `deployDocker` returns, one constructor for each `return` of
an error. -/
inductive DeployError where
  /-- Line 350: the error of `generateDockerfile` -/
  | dockerfile (msg : Str)
  /-- Line 359: `docker build failed: %v - %s` -/
  | build (err out : Str)
  /-- Lines 345 and 377: `docker run failed: %v - %s` -/
  | run (err out : Str)
  /-- Line 389: `health check failed` -/
  | healthCheck
  /-- Line 412: `final start failed: %v - %s` -/
  | finalStart (err out : Str)
deriving DecidableEq, Repr

/-- The text of an error, as `fmt.Errorf` builds it. -/
def DeployError.message : DeployError → Str
  | .dockerfile msg => msg
  | .build err out => "docker build failed: ".toList ++ err ++ " - ".toList ++ out
  | .run err out => "docker run failed: ".toList ++ err ++ " - ".toList ++ out
  | .healthCheck => "health check failed".toList
  | .finalStart err out => "final start failed: ".toList ++ err ++ " - ".toList ++ out

/-- A finished call of `deployDocker`: the error returned (`none` for `nil`),
the commands executed in order, and the engine state at the return. -/
structure Run (σ : Type) where
  error : Option DeployError
  events : List (Event σ)
  final : σ

/-- Ends a call with the given error. -/
def finish {σ : Type} (error : Option DeployError) (ctx : Ctx σ) : Run σ :=
  { error := error, events := ctx.events, final := ctx.state }

/-- Line 353: `fmt.Sprintf("vibe-deploy-%s:latest", containerName)`. -/
def imageNameOf (containerName : Str) : Str :=
  "vibe-deploy-".toList ++ containerName ++ ":latest".toList

/-- Line 364: `containerName + "-new"`. -/
def tempNameOf (containerName : Str) : Str :=
  containerName ++ "-new".toList

/-- Function `deployDocker` (lines 319-418), started in engine state `s0` with the
working tree `tree` at `deployDir`. -/
def deployDocker {σ : Type} (E : Engine σ) (tree : WorkTree)
    (containerName deployDir : Str) (appType : AppType) (s0 : σ) : Run σ :=
  let chk := call E (.inspect containerName) { state := s0, events := [] }
  let oldContainerExists := chk.1.err.isNone
  if appType = AppTypeStatic then
    let c1 := if oldContainerExists then stopAndRemove E containerName chk.2 else chk.2
    let started := call E (.runStatic containerName deployDir) c1
    match started.1.err with
    | some e => finish (some (.run e started.1.out)) started.2
    | none => finish none started.2
  else
    match generateDockerfile tree appType with
    | .error msg => finish (some (.dockerfile msg)) chk.2
    | .ok _ =>
      let imageName := imageNameOf containerName
      let built := call E (.build imageName deployDir) chk.2
      match built.1.err with
      | some e => finish (some (.build e built.1.out)) built.2
      | none =>
        let tempContainerName := tempNameOf containerName
        let c2 := stopAndRemove E tempContainerName built.2
        let staged := call E (.run tempContainerName imageName) c2
        match staged.1.err with
        | some e => finish (some (.run e staged.1.out)) staged.2
        | none =>
          let c4 := callIgnore E .sleep staged.2
          let probe := call E (.inspectRunning tempContainerName) c4
          if probe.1.err.isSome || probe.1.out ≠ "true\n".toList then
            finish (some .healthCheck) (stopAndRemove E tempContainerName probe.2)
          else
            let c6 := if oldContainerExists then stopAndRemove E containerName probe.2
                      else probe.2
            let c7 := stopAndRemove E tempContainerName c6
            let final := call E (.run containerName imageName) c7
            match final.1.err with
            | some e => finish (some (.finalStart e final.1.out)) final.2
            | none => finish none final.2

/-- The image build ran and succeeded. -/
def Run.buildSucceeded {σ : Type} (r : Run σ) : Bool :=
  r.events.any (fun e => e.cmd.isBuild && e.resp.err.isNone)

/-- The image build ran and failed. -/
def Run.buildFailed {σ : Type} (r : Run σ) : Bool :=
  r.events.any (fun e => e.cmd.isBuild && e.resp.err.isSome)

/-- The start of the container `name` ran and succeeded. -/
def Run.startSucceeded {σ : Type} (r : Run σ) (name : Str) : Bool :=
  r.events.any (fun e => (match e.cmd with | .run n _ => decide (n = name) | _ => false)
    && e.resp.err.isNone)

/-- The start of the container `name` ran and failed. -/
def Run.startFailed {σ : Type} (r : Run σ) (name : Str) : Bool :=
  r.events.any (fun e => (match e.cmd with | .run n _ => decide (n = name) | _ => false)
    && e.resp.err.isSome)

/-- The health probe of the container `name` ran and either failed or printed
something other than `true`. -/
def Run.probeFailed {σ : Type} (r : Run σ) (name : Str) : Bool :=
  r.events.any (fun e => decide (e.cmd = .inspectRunning name)
    && (e.resp.err.isSome || decide (e.resp.out ≠ "true\n".toList)))

/-- No command of the call stopped, removed or started the container `name`. -/
def Run.untouched {σ : Type} (r : Run σ) (name : Str) : Prop :=
  ∀ e ∈ r.events, e.cmd.target ≠ some name

/-- An observation of the engine state, per container name, that only the
commands aimed at that name change. -/
def FrameLaw {σ ι : Type} (E : Engine σ) (view : σ → Str → ι) : Prop :=
  ∀ (c : Cmd) (s : σ) (n : Str), c.target ≠ some n → view (E.exec c s).2 n = view s n

/-! ## A model of the Docker engine

The container engine is not part of the service.  The model follows the
operations the specification lists as relied upon (section 6): build an image
from a context directory, run a detached container with a given name and
image, stop and remove a named container, inspect whether a named container
is running.  Containers are found by name, `stop` and `rm` fail on a missing
container, `rm` refuses a running container, and `run` refuses a name that is
taken.  What the service does not decide is taken from the state: any command
may be refused by the engine and then changes nothing (`faulty`), a build
succeeds or not (`buildOk`), and a start of a container differs from one
command to the next (`start`). -/

/-- A container: its name, its identity, the identity of the image it was
created from, and whether it is running. -/
structure Container where
  name : Str
  id : Nat
  image : Nat
  running : Bool
deriving DecidableEq, Repr

/-- What starting a container from an image does: the engine refuses and
creates nothing; the container is created and fails to start; it starts and
runs; it starts and has exited by the time it is looked at. -/
inductive StartOutcome where
  | refused
  | created
  | running
  | exited
deriving DecidableEq, Repr

/-- Modelled from the spec: the state of the container engine, the containers
and images it holds. -/
structure Docker where
  /-- The containers, running or not. -/
  containers : List Container
  /-- The image tags and the identity of the image each one names. -/
  images : List (Str × Nat)
  /-- The next fresh identity for an image or a container. -/
  nextId : Nat
  /-- The number of commands the engine has received. -/
  clock : Nat
  /-- Whether the engine refuses the command it receives at this count
  (the daemon cannot be reached, the operation is not permitted). -/
  faulty : Nat → Bool
  /-- Whether building the context directory succeeds. -/
  buildOk : Str → Bool
  /-- What starting a container from the image does, for the command received
  at this count. -/
  start : Nat → Nat → StartOutcome

/-- The containers bearing the name `n`. -/
def Docker.named (d : Docker) (n : Str) : List Container :=
  d.containers.filter (fun c => c.name = n)

/-- The image a tag names. -/
def Docker.imageOf (d : Docker) (tag : Str) : Option Nat :=
  (d.images.find? (fun t => t.1 = tag)).map (fun t => t.2)

/-- The state once one more command has been received. -/
def Docker.tick (d : Docker) : Docker :=
  { d with clock := d.clock + 1 }

/-- The response of a failed command. -/
def failure (out : String) : Resp :=
  { err := some "exit status 1".toList, out := out.toList }

/-- The response of a successful command. -/
def success (out : String) : Resp :=
  { err := none, out := out.toList }

/-- Modelled from the spec: the engine operation "run a detached container with
a given name, network and image", `docker run -d --name <n> <tag>`, when the
engine accepts the command. -/
def Docker.run (d : Docker) (n tag : Str) : Resp × Docker :=
  if d.named n ≠ [] then (failure "Conflict. The container name is already in use", d)
  else
    match d.imageOf tag with
    | none => (failure "Unable to find image", d)
    | some img =>
      let fresh (running : Bool) : Docker :=
        { d with
          containers := d.containers ++ [{ name := n, id := d.nextId, image := img, running := running }]
          nextId := d.nextId + 1 }
      match d.start d.clock img with
      | .refused => (failure "Error response from daemon", d)
      | .created => (failure "Error response from daemon: failed to start", fresh false)
      | .running => (success "", fresh true)
      | .exited => (success "", fresh false)

/-- Modelled from the spec: the container engine operations of section 6, one
case for each command of `deployDocker`, when the engine accepts the
command. -/
def dockerStep : Cmd → Docker → Resp × Docker
  | .inspect n, d =>
    if d.named n ≠ [] || (d.imageOf n).isSome then (success "[...]", d)
    else (failure "Error: No such object", d)
  | .stop n, d =>
    if d.named n ≠ [] then
      (success "",
        { d with containers :=
            d.containers.map (fun c => if c.name = n then { c with running := false } else c) })
    else (failure "Error response from daemon: No such container", d)
  | .rm n, d =>
    if d.named n = [] then (failure "Error response from daemon: No such container", d)
    else if (d.named n).any (fun c => c.running) then
      (failure "Error response from daemon: cannot remove a running container", d)
    else (success "", { d with containers := d.containers.filter (fun c => c.name ≠ n) })
  | .runStatic n _, d => d.run n "nginx:alpine".toList
  | .build tag dir, d =>
    if d.buildOk dir then
      (success "",
        { d with images := (tag, d.nextId) :: d.images, nextId := d.nextId + 1 })
    else (failure "build failed", d)
  | .run n tag, d => d.run n tag
  | .sleep, d => (success "", d)
  | .inspectRunning n, d =>
    match d.named n with
    | [] => (failure "Error: No such object", d)
    | c :: _ => (success (if c.running then "true\n" else "false\n"), d)

/-- Modelled from the spec: the container engine receiving one command. A
command the engine refuses fails and changes nothing; otherwise it takes
effect as `dockerStep` says. -/
def dockerExec (c : Cmd) (d : Docker) : Resp × Docker :=
  if d.faulty d.clock then (failure "Error response from daemon", d.tick)
  else ((dockerStep c d).1, (dockerStep c d).2.tick)

/-- Modelled from the spec: the Docker model as a container engine. -/
def docker : Engine Docker := { exec := dockerExec }

/-- The identities in use are below the next fresh one. -/
def Docker.WellFormed (d : Docker) : Prop :=
  (∀ c ∈ d.containers, c.id < d.nextId) ∧ (∀ t ∈ d.images, t.2 < d.nextId)

/-! ## Sample inputs -/

/-- A working tree with a Node manifest and a Python entry point. -/
def sampleNodeTree : WorkTree :=
  { stat := fun f =>
      if f = "package.json".toList ∨ f = "main.py".toList then .found else .notExist
    writeErr := none }

/-- A working tree in which nothing can be written. -/
def sampleReadOnlyTree : WorkTree :=
  { stat := fun f => if f = "package.json".toList then .found else .notExist
    writeErr := some "permission denied".toList }

/-- An engine state with a running canonical container `blog` (identity 7) from
an older image (identity 3), and a stale transitional container `blog-new`;
the image built next starts a container that has exited when probed. -/
def sampleUnhealthy : Docker :=
  { containers :=
      [ { name := "blog".toList, id := 7, image := 3, running := true },
        { name := "blog-new".toList, id := 8, image := 3, running := false } ]
    images := [("vibe-deploy-blog:latest".toList, 3), ("nginx:alpine".toList, 1)]
    nextId := 9
    clock := 0
    faulty := fun _ => false
    buildOk := fun _ => true
    start := fun _ img => if img = 9 then .exited else .running }

/-- The state `sampleUnhealthy` with a build that fails. -/
def sampleBuildFails : Docker :=
  { sampleUnhealthy with buildOk := fun _ => false }

/-- The state `sampleUnhealthy` with images that all start and keep running. -/
def sampleHealthy : Docker :=
  { sampleUnhealthy with start := fun _ _ => .running }

/-- The state `sampleHealthy` with an engine that creates each container and
fails to start it. -/
def sampleStageFails : Docker :=
  { sampleHealthy with start := fun _ _ => .created }

/-- The registry text holding the single record of the site `a.example.com`,
as `upsert` writes it into an empty registry. -/
def sampleRegistry : Str :=
  (upsert RegistryIO.ok [] "a.example.com".toList "webapp".toList "3000".toList
    AppTypeNode).text

/-- The file operations when `sites.yaml` cannot be opened for appending. -/
def sampleOpenFails : RegistryIO :=
  { readErr := none, openErr := some "permission denied".toList, writeErr := none }


/-! ## Traces -/

/-- The events are what the engine answers, one command after the other,
starting in state `s`. -/
def chained {σ : Type} (E : Engine σ) : σ → List (Event σ) → Prop
  | _, [] => True
  | s, e :: es =>
    e.resp = (E.exec e.cmd s).1 ∧ e.after = (E.exec e.cmd s).2 ∧ chained E e.after es

/-- The engine state after the events, started in state `s`. -/
def lastState {σ : Type} (s : σ) : List (Event σ) → σ
  | [] => s
  | e :: es => lastState e.after es

/-- The classifications the service deploys with the build-verify-swap
protocol. -/
def AppType.dynamic (appType : AppType) : Prop :=
  appType = AppTypeNode ∨ appType = AppTypeGo ∨ appType = AppTypePython

/-- A context that records faithfully what the engine did since state `s0`. -/
def CtxOk {σ : Type} (E : Engine σ) (s0 : σ) (ctx : Ctx σ) : Prop :=
  chained E s0 ctx.events ∧ ctx.state = lastState s0 ctx.events

/-- The engine state after a sequence of commands. -/
def runCmds {σ : Type} (E : Engine σ) (cmds : List Cmd) (s : σ) : σ :=
  cmds.foldl (fun st c => (E.exec c st).2) s

/-- The site name used in the sample runs. -/
def sampleSite : Str := "blog".toList

/-- The directory used in the sample runs. -/
def sampleDir : Str := "/deployments/blog".toList

set_option maxRecDepth 100000
/-! ## Facts about the string functions -/

theorem stringsContains_iff (s sub : Str) : stringsContains s sub = true ↔ sub <:+: s := by
  induction s with
  | nil => simp [stringsContains, List.isPrefixOf_iff_prefix]
  | cons c cs ih =>
    simp only [stringsContains, Bool.or_eq_true, ih, List.isPrefixOf_iff_prefix]
    exact (List.infix_cons_iff).symm

theorem trimLeft_head (s : Str) : ∀ c ∈ (trimLeft s).head?, isSpace c = false := by
  induction s with
  | nil => simp [trimLeft]
  | cons a as ih =>
    intro c hc
    unfold trimLeft at hc ih
    by_cases h : isSpace a = true
    · rw [List.dropWhile_cons_of_pos h] at hc
      exact ih c hc
    · rw [List.dropWhile_cons_of_neg h] at hc
      simp at hc
      subst hc
      simpa using h

theorem trimRight_prefix (s : Str) : trimRight s <+: s := by
  unfold trimRight
  have h : s.reverse.dropWhile isSpace <:+ s.reverse := List.dropWhile_suffix _
  have := List.reverse_prefix.mpr h
  simpa using this

theorem trimSpace_head (s : Str) : ∀ c ∈ (trimSpace s).head?, isSpace c = false := by
  intro c hc
  apply trimLeft_head s c
  unfold trimSpace at hc
  obtain ⟨t, ht⟩ := trimRight_prefix (trimLeft s)
  cases hs : trimRight (trimLeft s) with
  | nil => rw [hs] at hc; simp at hc
  | cons a as =>
    rw [hs] at hc ht
    rw [← ht]
    simpa using hc

theorem trimSpace_not_indented (s : Str) : hasPrefix (trimSpace s) "  ".toList = false := by
  have h := trimSpace_head s
  cases hs : trimSpace s with
  | nil => decide
  | cons a as =>
    rw [hs] at h
    have ha : isSpace a = false := h a (by simp)
    by_cases hsp : a = ' '
    · subst hsp; exact absurd ha (by decide)
    · have hsp2 : ¬ ' ' = a := fun h => hsp h.symm
      simp [hasPrefix, List.isPrefixOf, hsp2]


/-! ## The trace of `deployDocker` -/

theorem lastState_append {σ : Type} (s : σ) (es : List (Event σ)) (e : Event σ) :
    lastState s (es ++ [e]) = e.after := by
  induction es generalizing s with
  | nil => rfl
  | cons a as ih => exact ih a.after

theorem chained_append {σ : Type} (E : Engine σ) (s : σ) (es : List (Event σ)) (e : Event σ)
    (h : chained E s es) (hr : e.resp = (E.exec e.cmd (lastState s es)).1)
    (ha : e.after = (E.exec e.cmd (lastState s es)).2) : chained E s (es ++ [e]) := by
  induction es generalizing s with
  | nil => exact ⟨hr, ha, trivial⟩
  | cons a as ih => exact ⟨h.1, h.2.1, ih a.after h.2.2 hr ha⟩

theorem call_ok {σ : Type} (E : Engine σ) (s0 : σ) (c : Cmd) (ctx : Ctx σ)
    (h : CtxOk E s0 ctx) : CtxOk E s0 (call E c ctx).2 := by
  refine ⟨chained_append E s0 _ _ h.1 ?_ ?_, ?_⟩
  · simp [h.2]
  · simp [h.2]
  · simp [call, lastState_append]

theorem callIgnore_ok {σ : Type} (E : Engine σ) (s0 : σ) (c : Cmd) (ctx : Ctx σ)
    (h : CtxOk E s0 ctx) : CtxOk E s0 (callIgnore E c ctx) :=
  call_ok E s0 c ctx h

theorem stopAndRemove_ok {σ : Type} (E : Engine σ) (s0 : σ) (n : Str) (ctx : Ctx σ)
    (h : CtxOk E s0 ctx) : CtxOk E s0 (stopAndRemove E n ctx) :=
  callIgnore_ok E s0 _ _ (callIgnore_ok E s0 _ _ h)

theorem deployDocker_chained {σ : Type} (E : Engine σ) (tree : WorkTree)
    (containerName deployDir : Str) (appType : AppType) (s0 : σ) :
    chained E s0 (deployDocker E tree containerName deployDir appType s0).events ∧
    (deployDocker E tree containerName deployDir appType s0).final =
      lastState s0 (deployDocker E tree containerName deployDir appType s0).events := by
  have h0 : CtxOk E s0 { state := s0, events := [] } := ⟨trivial, rfl⟩
  have fin : ∀ (err : Option DeployError) (ctx : Ctx σ), CtxOk E s0 ctx →
      chained E s0 (finish err ctx).events ∧
        (finish err ctx).final = lastState s0 (finish err ctx).events := fun _ _ h => h
  unfold deployDocker
  simp only []
  repeat' split
  all_goals
    apply fin
    repeat (first
      | exact h0
      | apply call_ok
      | apply callIgnore_ok
      | apply stopAndRemove_ok)

theorem tempNameOf_ne (n : Str) : tempNameOf n ≠ n := by
  intro h
  have := congrArg List.length h
  simp [tempNameOf] at this

theorem frame_preserved {σ ι : Type} (E : Engine σ) (view : σ → Str → ι)
    (hframe : FrameLaw E view) (n : Str) (s : σ) (es : List (Event σ))
    (hc : chained E s es) (hu : ∀ e ∈ es, e.cmd.target ≠ some n) :
    view (lastState s es) n = view s n := by
  induction es generalizing s with
  | nil => rfl
  | cons e es ih =>
    have h1 := ih e.after hc.2.2 (fun x hx => hu x (List.mem_cons_of_mem _ hx))
    have h2 := hframe e.cmd s n (hu e (List.mem_cons_self _ _))
    simp only [lastState]
    rw [h1, hc.2.1, h2]

theorem probeFailed_trace {σ : Type} (E : Engine σ) (tree : WorkTree)
    (containerName deployDir : Str) (appType : AppType) (s0 : σ)
    (hprobe : (deployDocker E tree containerName deployDir appType s0).probeFailed
      (tempNameOf containerName) = true) :
    (deployDocker E tree containerName deployDir appType s0).error = some .healthCheck ∧
    (deployDocker E tree containerName deployDir appType s0).untouched containerName := by
  have hne := tempNameOf_ne containerName
  generalize hr : deployDocker E tree containerName deployDir appType s0 = r at hprobe ⊢
  unfold deployDocker at hr
  simp only [] at hr
  repeat' split at hr
  all_goals
    subst hr
    simp_all [Run.probeFailed, Run.untouched, finish, call, callIgnore, stopAndRemove, Cmd.target]

theorem abort_trace {σ : Type} (E : Engine σ) (tree : WorkTree)
    (containerName deployDir : Str) (appType : AppType) (s0 : σ)
    (hne : appType ≠ AppTypeStatic)
    (h : (deployDocker E tree containerName deployDir appType s0).buildFailed = true ∨
      ((deployDocker E tree containerName deployDir appType s0).buildSucceeded = true ∧
        (deployDocker E tree containerName deployDir appType s0).startFailed
          (tempNameOf containerName) = true)) :
    ((∃ err out, (deployDocker E tree containerName deployDir appType s0).error
        = some (.build err out)) ∨
      (∃ err out, (deployDocker E tree containerName deployDir appType s0).error
        = some (.run err out))) ∧
    (deployDocker E tree containerName deployDir appType s0).untouched containerName := by
  have hne2 := tempNameOf_ne containerName
  have hne3 : ¬ containerName = tempNameOf containerName := fun h => hne2 h.symm
  generalize hr : deployDocker E tree containerName deployDir appType s0 = r at h ⊢
  unfold deployDocker at hr
  simp only [] at hr
  rw [if_neg hne] at hr
  repeat' split at hr
  all_goals
    subst hr
    simp_all [Run.buildFailed, Run.buildSucceeded, Run.startFailed, Run.untouched, finish, call,
      callIgnore, stopAndRemove, Cmd.target, Cmd.isBuild]

theorem static_trace {σ : Type} (E : Engine σ) (tree : WorkTree)
    (containerName deployDir : Str) (s0 : σ) :
    ∀ e ∈ (deployDocker E tree containerName deployDir AppTypeStatic s0).events,
      e.cmd.isBuild = false := by
  generalize hr : deployDocker E tree containerName deployDir AppTypeStatic s0 = r
  unfold deployDocker at hr
  simp only [if_true] at hr
  repeat' split at hr
  all_goals
    subst hr
    simp [finish, call, callIgnore, stopAndRemove, Cmd.isBuild]

theorem dynamic_trace {σ : Type} (E : Engine σ) (tree : WorkTree)
    (containerName deployDir : Str) (appType : AppType) (s0 : σ)
    (hne : appType ≠ AppTypeStatic) :
    (∀ written, generateDockerfile tree appType = .ok written →
      ∃ e ∈ (deployDocker E tree containerName deployDir appType s0).events,
        e.cmd = .build (imageNameOf containerName) deployDir) ∧
    (∀ msg, generateDockerfile tree appType = .error msg →
      (deployDocker E tree containerName deployDir appType s0).error = some (.dockerfile msg) ∧
      ∀ e ∈ (deployDocker E tree containerName deployDir appType s0).events,
        e.cmd.isBuild = false) := by
  generalize hr : deployDocker E tree containerName deployDir appType s0 = r
  unfold deployDocker at hr
  simp only [] at hr
  rw [if_neg hne] at hr
  constructor
  · intro written hw
    rw [hw] at hr
    simp only [] at hr
    repeat' split at hr
    all_goals
      subst hr
      simp [finish, call, callIgnore, stopAndRemove]
  · intro msg hm
    rw [hm] at hr
    subst hr
    simp [finish, call, Cmd.isBuild]

/-! ## The Docker model -/

theorem named_stopped (l : List Container) (m n : Str) :
    (l.map (fun c => if c.name = m then { c with running := false } else c)).filter
        (fun c => c.name = n) =
      (l.filter (fun c => c.name = n)).map
        (fun c => if c.name = m then { c with running := false } else c) := by
  rw [List.filter_map]
  congr 1
  apply List.filter_congr
  intro c _
  simp only [Function.comp]
  split <;> rfl

theorem map_stopped_ne (l : List Container) (m n : Str) (h : m ≠ n)
    (hl : ∀ c ∈ l, c.name = n) :
    l.map (fun c => if c.name = m then { c with running := false } else c) = l := by
  induction l with
  | nil => rfl
  | cons a as ih =>
    have ha : a.name ≠ m := by
      rw [hl a (List.mem_cons_self _ _)]; exact fun e => h e.symm
    simp only [List.map_cons, if_neg ha]
    rw [ih (fun c hc => hl c (List.mem_cons_of_mem _ hc))]

theorem named_removed_ne (l : List Container) (m n : Str) (h : m ≠ n) :
    (l.filter (fun c => c.name ≠ m)).filter (fun c => c.name = n) =
      l.filter (fun c => c.name = n) := by
  rw [List.filter_filter]
  apply List.filter_congr
  intro c _
  by_cases hn : c.name = n
  · have hm : ¬ n = m := fun e => h e.symm
    simp [hn, hm]
  · simp [hn]

theorem run_named_ne (d : Docker) (m tag n : Str) (h : m ≠ n) :
    (d.run m tag).2.named n = d.named n := by
  unfold Docker.run
  split
  · rfl
  · split
    · rfl
    · split <;> simp [Docker.named, List.filter_append, List.filter_cons, h]

theorem step_frame (c : Cmd) (d : Docker) (n : Str) (hc : c.target ≠ some n) :
    (dockerStep c d).2.named n = d.named n := by
  cases c with
  | inspect m => simp only [dockerStep]; split <;> rfl
  | stop m =>
    have hmn : m ≠ n := fun e => hc (by simp [Cmd.target, e])
    simp only [dockerStep]
    split
    · simp only [Docker.named]
      rw [named_stopped, map_stopped_ne _ m n hmn]
      intro c hc
      simpa using (List.mem_filter.mp hc).2
    · rfl
  | rm m =>
    have hmn : m ≠ n := fun e => hc (by simp [Cmd.target, e])
    simp only [dockerStep]
    split
    · rfl
    · split
      · rfl
      · exact named_removed_ne _ m n hmn
  | runStatic m dir =>
    have hmn : m ≠ n := fun e => hc (by simp [Cmd.target, e])
    exact run_named_ne d m _ n hmn
  | build tag dir => simp only [dockerStep]; split <;> rfl
  | run m tag =>
    have hmn : m ≠ n := fun e => hc (by simp [Cmd.target, e])
    exact run_named_ne d m _ n hmn
  | sleep => rfl
  | inspectRunning m => simp only [dockerStep]; split <;> rfl

theorem docker_exec : docker.exec = dockerExec := rfl

theorem exec_cases (c : Cmd) (d : Docker) :
    ((dockerExec c d).1.err ≠ none ∧ (dockerExec c d).2 = d.tick) ∨
    ((dockerExec c d).1 = (dockerStep c d).1 ∧ (dockerExec c d).2 = (dockerStep c d).2.tick) := by
  unfold dockerExec
  split
  · exact Or.inl ⟨by simp [failure], rfl⟩
  · exact Or.inr ⟨rfl, rfl⟩

theorem exec_ok (c : Cmd) (d : Docker) (h : (dockerExec c d).1.err = none) :
    (dockerStep c d).1.err = none ∧ (dockerExec c d).2 = (dockerStep c d).2.tick := by
  rcases exec_cases c d with ⟨h1, _⟩ | ⟨h1, h2⟩
  · exact absurd h h1
  · rw [h1] at h; exact ⟨h, h2⟩

theorem docker_frame : FrameLaw docker Docker.named := by
  intro c d n hc
  rw [docker_exec]
  rcases exec_cases c d with ⟨_, h⟩ | ⟨_, h⟩
  · rw [h]; rfl
  · rw [h]; exact step_frame c d n hc

theorem success_static {σ : Type} (E : Engine σ) (tree : WorkTree)
    (containerName deployDir : Str) (s0 : σ)
    (h : (deployDocker E tree containerName deployDir AppTypeStatic s0).error = none) :
    ∃ pre : List Cmd,
      (E.exec (.runStatic containerName deployDir) (runCmds E pre s0)).1.err = none ∧
      (deployDocker E tree containerName deployDir AppTypeStatic s0).final =
        (E.exec (.runStatic containerName deployDir) (runCmds E pre s0)).2 ∧
      ((∀ c ∈ pre, c.target ≠ some containerName) ∨
        ((∃ e ∈ (deployDocker E tree containerName deployDir AppTypeStatic s0).events,
            e.cmd = .stop containerName) ∧
          (∃ e ∈ (deployDocker E tree containerName deployDir AppTypeStatic s0).events,
            e.cmd = .rm containerName))) := by
  generalize hr : deployDocker E tree containerName deployDir AppTypeStatic s0 = r at h ⊢
  unfold deployDocker at hr
  simp only [if_true] at hr
  repeat' split at hr
  all_goals
    subst hr
    solve
      | (exfalso; simp [finish] at h)
      | (refine ⟨[.inspect containerName, .stop containerName, .rm containerName], ?_, ?_,
            Or.inr ?_⟩ <;>
          simp_all [finish, call, callIgnore, stopAndRemove, runCmds])
      | (refine ⟨[.inspect containerName], ?_, ?_, Or.inl ?_⟩ <;>
          simp_all [finish, call, callIgnore, stopAndRemove, runCmds, Cmd.target])

theorem success_dynamic {σ : Type} (E : Engine σ) (tree : WorkTree)
    (containerName deployDir : Str) (appType : AppType) (s0 : σ)
    (hne : appType ≠ AppTypeStatic)
    (h : (deployDocker E tree containerName deployDir appType s0).error = none) :
    ∃ mid : List Cmd, (∀ c ∈ mid, c.isBuild = false) ∧
      (E.exec (.build (imageNameOf containerName) deployDir)
        (E.exec (.inspect containerName) s0).2).1.err = none ∧
      (E.exec (.run containerName (imageNameOf containerName))
        (runCmds E mid (E.exec (.build (imageNameOf containerName) deployDir)
          (E.exec (.inspect containerName) s0).2).2)).1.err = none ∧
      (deployDocker E tree containerName deployDir appType s0).final =
        (E.exec (.run containerName (imageNameOf containerName))
          (runCmds E mid (E.exec (.build (imageNameOf containerName) deployDir)
            (E.exec (.inspect containerName) s0).2).2)).2 ∧
      (∃ e ∈ (deployDocker E tree containerName deployDir appType s0).events,
        e.cmd = .build (imageNameOf containerName) deployDir ∧ e.resp.err = none) ∧
      (∃ e ∈ (deployDocker E tree containerName deployDir appType s0).events,
        e.cmd = .run containerName (imageNameOf containerName) ∧ e.resp.err = none ∧
        e.after = (deployDocker E tree containerName deployDir appType s0).final) ∧
      ((∀ c ∈ mid, c.target ≠ some containerName) ∨
        ((∃ e ∈ (deployDocker E tree containerName deployDir appType s0).events,
            e.cmd = .stop containerName) ∧
          (∃ e ∈ (deployDocker E tree containerName deployDir appType s0).events,
            e.cmd = .rm containerName))) := by
  have hne2 := tempNameOf_ne containerName
  generalize hr : deployDocker E tree containerName deployDir appType s0 = r at h ⊢
  unfold deployDocker at hr
  simp only [] at hr
  rw [if_neg hne] at hr
  by_cases hold : (call E (.inspect containerName) { state := s0, events := [] }).1.err.isNone
      = true
  · simp only [hold, if_true] at hr
    repeat' split at hr
    all_goals
      subst hr
      first
        | (exfalso; simp [finish] at h; done)
        | (refine ⟨[.stop (tempNameOf containerName), .rm (tempNameOf containerName),
              .run (tempNameOf containerName) (imageNameOf containerName), .sleep,
              .inspectRunning (tempNameOf containerName),
              .stop containerName, .rm containerName,
              .stop (tempNameOf containerName), .rm (tempNameOf containerName)],
              ?_, ?_, ?_, ?_, ?_, ?_, Or.inr ?_⟩ <;>
            simp_all [finish, call, callIgnore, stopAndRemove, runCmds, Cmd.isBuild])
  · simp only [hold, Bool.false_eq_true, if_false] at hr
    repeat' split at hr
    all_goals
      subst hr
      first
        | (exfalso; simp [finish] at h; done)
        | (refine ⟨[.stop (tempNameOf containerName), .rm (tempNameOf containerName),
              .run (tempNameOf containerName) (imageNameOf containerName), .sleep,
              .inspectRunning (tempNameOf containerName),
              .stop (tempNameOf containerName), .rm (tempNameOf containerName)],
              ?_, ?_, ?_, ?_, ?_, ?_, Or.inl ?_⟩ <;>
            simp_all [finish, call, callIgnore, stopAndRemove, runCmds, Cmd.isBuild,
              Cmd.target])

theorem step_nextId_le (c : Cmd) (d : Docker) : d.nextId ≤ (dockerStep c d).2.nextId := by
  cases c <;> simp only [dockerStep, Docker.run] <;> repeat' split
  all_goals simp

theorem step_images (c : Cmd) (d : Docker) (h : c.isBuild = false) :
    (dockerStep c d).2.images = d.images := by
  cases c <;> simp only [dockerStep, Docker.run] <;> repeat' split
  all_goals first | rfl | simp [Cmd.isBuild] at h

theorem exec_nextId_le (c : Cmd) (d : Docker) : d.nextId ≤ (dockerExec c d).2.nextId := by
  rcases exec_cases c d with ⟨_, h2⟩ | ⟨_, h2⟩
  · rw [h2]; exact Nat.le_refl _
  · rw [h2]; exact step_nextId_le c d

theorem exec_images (c : Cmd) (d : Docker) (h : c.isBuild = false) :
    (dockerExec c d).2.images = d.images := by
  rcases exec_cases c d with ⟨_, h2⟩ | ⟨_, h2⟩
  · rw [h2]; rfl
  · rw [h2]; exact step_images c d h

theorem runCmds_nextId_le (cmds : List Cmd) (d : Docker) :
    d.nextId ≤ (runCmds docker cmds d).nextId := by
  induction cmds generalizing d with
  | nil => exact Nat.le_refl _
  | cons c cs ih => exact Nat.le_trans (exec_nextId_le c d) (ih _)

theorem runCmds_images (cmds : List Cmd) (d : Docker) (h : ∀ c ∈ cmds, c.isBuild = false) :
    (runCmds docker cmds d).images = d.images := by
  induction cmds generalizing d with
  | nil => rfl
  | cons c cs ih =>
    have h1 := ih (dockerExec c d).2 (fun x hx => h x (List.mem_cons_of_mem _ hx))
    have h2 := exec_images c d (h c (List.mem_cons_self _ _))
    simp only [runCmds, List.foldl_cons, docker] at h1 ⊢
    rw [h1, h2]

theorem runCmds_named (cmds : List Cmd) (d : Docker) (n : Str)
    (h : ∀ c ∈ cmds, c.target ≠ some n) :
    (runCmds docker cmds d).named n = d.named n := by
  induction cmds generalizing d with
  | nil => rfl
  | cons c cs ih =>
    have h1 := ih (dockerExec c d).2 (fun x hx => h x (List.mem_cons_of_mem _ hx))
    have h2 := docker_frame c d n (h c (List.mem_cons_self _ _))
    simp only [runCmds, List.foldl_cons, docker] at h1 h2 ⊢
    rw [h1, h2]

theorem build_ok (d : Docker) (tag dir : Str)
    (h : (dockerExec (.build tag dir) d).1.err = none) :
    (dockerExec (.build tag dir) d).2.images = (tag, d.nextId) :: d.images := by
  obtain ⟨h1, h2⟩ := exec_ok _ _ h
  rw [h2]
  simp only [dockerStep] at h1 ⊢
  split
  · rfl
  · rename_i hb
    simp [hb, failure] at h1

theorem run_step_ok (d : Docker) (n tag : Str) (h : (d.run n tag).1.err = none) :
    ∃ c, (d.run n tag).2.named n = [c] ∧ c.id = d.nextId ∧ d.imageOf tag = some c.image ∧
      (d.run n tag).2.images = d.images := by
  unfold Docker.run at h ⊢
  split
  · rename_i hn; simp [hn, failure] at h
  · rename_i hn
    have hn2 : d.named n = [] := by simpa using hn
    simp only [if_neg hn] at h
    split
    · rename_i hi; simp [hi, failure] at h
    · rename_i img hi
      simp only [hi] at h
      split
      · rename_i hs; simp [hs, failure] at h
      · rename_i hs; simp [hs, failure] at h
      · refine ⟨{ name := n, id := d.nextId, image := img, running := true }, ?_, rfl,
          by assumption, rfl⟩
        simp only [Docker.named] at hn2 ⊢
        simp [List.filter_append, hn2, List.filter_cons]
      · refine ⟨{ name := n, id := d.nextId, image := img, running := false }, ?_, rfl,
          by assumption, rfl⟩
        simp only [Docker.named] at hn2 ⊢
        simp [List.filter_append, hn2, List.filter_cons]

theorem run_ok (d : Docker) (n tag : Str) (h : (dockerExec (.run n tag) d).1.err = none) :
    ∃ c, (dockerExec (.run n tag) d).2.named n = [c] ∧ c.id = d.nextId ∧
      d.imageOf tag = some c.image ∧ (dockerExec (.run n tag) d).2.images = d.images := by
  obtain ⟨h1, h2⟩ := exec_ok _ _ h
  rw [h2]
  exact run_step_ok d n tag h1

theorem runStatic_ok (d : Docker) (n dir : Str)
    (h : (dockerExec (.runStatic n dir) d).1.err = none) :
    ∃ c, (dockerExec (.runStatic n dir) d).2.named n = [c] ∧ c.id = d.nextId := by
  obtain ⟨h1, h2⟩ := exec_ok _ _ h
  rw [h2]
  obtain ⟨c, hc, hid, -, -⟩ := run_step_ok d n _ h1
  exact ⟨c, hc, hid⟩

theorem run_conflict (d : Docker) (n tag : Str) (hn : d.named n ≠ []) :
    (d.run n tag).1.err ≠ none := by
  unfold Docker.run
  rw [if_pos hn]
  simp [failure]

theorem start_conflict (c : Cmd) (d : Docker) (n : Str) (hn : d.named n ≠ [])
    (hc : (∃ tag, c = .run n tag) ∨ (∃ dir, c = .runStatic n dir)) :
    (dockerExec c d).1.err ≠ none := by
  rcases exec_cases c d with ⟨h1, _⟩ | ⟨h1, _⟩
  · exact h1
  · rw [h1]
    rcases hc with ⟨tag, rfl⟩ | ⟨dir, rfl⟩
    · exact run_conflict d n tag hn
    · exact run_conflict d n _ hn

theorem imageOf_head (d : Docker) (tag : Str) (img : Nat) (rest : List (Str × Nat))
    (h : d.images = (tag, img) :: rest) : d.imageOf tag = some img := by
  simp [Docker.imageOf, h, List.find?]

/-! ## The registry and the proxy configuration -/

theorem scanLine_no_domain (st : ScanState) (raw : Str)
    (hd : st.currentDomain = []) (ho : st.output = caddyHeader) :
    (scanLine st raw).currentDomain = [] ∧ (scanLine st raw).output = caddyHeader := by
  unfold scanLine
  simp only [trimSpace_not_indented, Bool.and_false, Bool.false_and, Bool.false_eq_true,
    if_false]
  split
  · exact ⟨hd, ho⟩
  · split
    · exact ⟨hd, ho⟩
    · exact ⟨hd, ho⟩

theorem foldl_scanLine_no_domain (lines : List Str) (st : ScanState)
    (hd : st.currentDomain = []) (ho : st.output = caddyHeader) :
    (lines.foldl scanLine st).currentDomain = [] ∧
      (lines.foldl scanLine st).output = caddyHeader := by
  induction lines generalizing st with
  | nil => exact ⟨hd, ho⟩
  | cons l ls ih =>
    have h := scanLine_no_domain st l hd ho
    exact ih (scanLine st l) h.1 h.2

theorem scanRegistry_no_domain (content : Str) :
    (scanRegistry content).currentDomain = [] ∧ (scanRegistry content).output = caddyHeader :=
  foldl_scanLine_no_domain _ _ rfl rfl

theorem generateCaddyfile_eq_header (content : Str) : generateCaddyfile content = caddyHeader := by
  have h := scanRegistry_no_domain content
  simp [generateCaddyfile, ScanState.flush, ScanState.complete, h.1, h.2]

theorem caddyHeader_no_reverse_proxy :
    stringsContains caddyHeader "reverse_proxy".toList = false := by decide

theorem routeBlock_has_reverse_proxy (domain container port : Str) :
    "reverse_proxy".toList <:+: routeBlock domain container port := by
  refine ⟨"\n".toList ++ domain ++ ", www.".toList ++ domain ++ " \x7b\n    ".toList,
    " ".toList ++ container ++ ":".toList ++ port ++ "\n\x7d\n".toList, ?_⟩
  simp [routeBlock]

theorem caddyHeader_no_routeBlock (domain container port : Str) :
    ¬ routeBlock domain container port <:+: caddyHeader := by
  intro h
  have h2 := (stringsContains_iff _ _).mpr
    (List.IsInfix.trans (routeBlock_has_reverse_proxy domain container port) h)
  rw [caddyHeader_no_reverse_proxy] at h2
  exact Bool.false_ne_true h2

/-- C10: whatever the registry text, no line is recognised as a hostname line
(a whitespace-trimmed line never starts with two spaces), the current hostname
is empty after every line of the scan, and the configuration text is exactly
the fixed header, which contains no routing block. -/
theorem generateCaddyfile_always_header (content : Str) :
    (∀ rawLine : Str, hasPrefix (trimSpace rawLine) "  ".toList = false) ∧
    (∀ k : Nat, (scanFirst k content).currentDomain = []) ∧
    (scanRegistry content).currentDomain = [] ∧
    generateCaddyfile content = caddyHeader ∧
    (∀ domain container port : Str,
      ¬ routeBlock domain container port <:+: generateCaddyfile content) := by
  refine ⟨trimSpace_not_indented,
    fun k => (foldl_scanLine_no_domain _ scanStart rfl rfl).1,
    (scanRegistry_no_domain content).1, generateCaddyfile_eq_header content, ?_⟩
  intro domain container port
  rw [generateCaddyfile_eq_header]
  exact caddyHeader_no_routeBlock domain container port

/-- C1 (evaluation at the failing input): for the registry text holding the
single record (a.example.com, webapp, 3000) in the format `upsert` writes, the
synthesized configuration is the bare header and does not contain the block
routing a.example.com and www.a.example.com to webapp:3000. -/
theorem generateCaddyfile_drops_persisted_record :
    sampleRegistry =
      "\n  a.example.com:\n    container: webapp\n    port: 3000\n    type: node\n".toList ∧
    generateCaddyfile sampleRegistry = caddyHeader ∧
    ¬ ("\na.example.com, www.a.example.com \x7b\n    reverse_proxy webapp:3000\n\x7d\n".toList
        <:+: generateCaddyfile sampleRegistry) := by
  refine ⟨by decide, generateCaddyfile_eq_header _, ?_⟩
  rw [generateCaddyfile_eq_header]
  exact caddyHeader_no_routeBlock "a.example.com".toList "webapp".toList "3000".toList

/-! ## The registry step -/

theorem upsert_keeps_text (io : RegistryIO) (content hostname containerName port : Str)
    (appType : AppType) (h : hostname <:+: content) :
    (upsert io content hostname containerName port appType).text = content := by
  have hc := (stringsContains_iff content hostname).mpr h
  unfold upsert
  split
  · rfl
  · simp [hc]

theorem entry_has_hostname (content hostname containerName port : Str) (appType : AppType) :
    hostname <:+: content ++ newEntry hostname containerName port appType :=
  ⟨content ++ "\n  ".toList, ":\n    container: ".toList ++ containerName ++
    "\n    port: ".toList ++ port ++ "\n    type: ".toList ++ appType ++ "\n".toList,
    by simp [newEntry]⟩

theorem upsert_ok_has_hostname (io : RegistryIO) (content hostname containerName port : Str)
    (appType : AppType)
    (h : (upsert io content hostname containerName port appType).err = none) :
    hostname <:+: (upsert io content hostname containerName port appType).text := by
  unfold upsert at h ⊢
  split
  · rename_i e he; simp [he] at h
  · rename_i he
    simp only [he] at h
    by_cases hc : stringsContains content hostname = true
    · simp only [hc, Bool.not_true, Bool.false_eq_true, if_false]
      exact (stringsContains_iff _ _).mp hc
    · simp only [hc, Bool.not_eq_true] at *
      simp only [Bool.not_false, if_true] at h ⊢
      split
      · rename_i e ho; simp [ho] at h
      · rename_i ho
        simp only [ho] at h
        split
        · rename_i n e hw; simp [hw] at h
        · exact entry_has_hostname _ _ _ _ _

theorem upsert_appends (io : RegistryIO) (content hostname containerName port : Str)
    (appType : AppType) (hn : ¬ hostname <:+: content)
    (h : (upsert io content hostname containerName port appType).err = none) :
    (upsert io content hostname containerName port appType).text =
      content ++ newEntry hostname containerName port appType := by
  have hc : stringsContains content hostname = false := by
    rw [← Bool.not_eq_true, stringsContains_iff]; exact hn
  unfold upsert at h ⊢
  split
  · rename_i e he; simp [he] at h
  · rename_i he
    simp only [he, hc, Bool.not_false, if_true] at h ⊢
    split
    · rename_i e ho; simp [ho] at h
    · rename_i ho
      simp only [ho] at h
      split
      · rename_i n e hw; simp [hw] at h
      · rfl

theorem upsert_part (io : RegistryIO) (content hostname containerName port : Str)
    (appType : AppType) :
    ∃ n, (upsert io content hostname containerName port appType).text =
      content ++ (newEntry hostname containerName port appType).take n := by
  unfold upsert
  split
  · exact ⟨0, by simp⟩
  · split
    · split
      · exact ⟨0, by simp⟩
      · split
        · rename_i n e _; exact ⟨n, rfl⟩
        · exact ⟨(newEntry hostname containerName port appType).length, by simp⟩
    · exact ⟨0, by simp⟩

theorem upsert_again (io₁ io₂ : RegistryIO)
    (content hostname container₁ port₁ container₂ port₂ : Str) (type₁ type₂ : AppType)
    (h : (upsert io₁ content hostname container₁ port₁ type₁).err = none) :
    (upsert io₂ (upsert io₁ content hostname container₁ port₁ type₁).text hostname
        container₂ port₂ type₂).text
      = (upsert io₁ content hostname container₁ port₁ type₁).text :=
  upsert_keeps_text io₂ _ hostname container₂ port₂ type₂
    (upsert_ok_has_hostname io₁ content hostname container₁ port₁ type₁ h)

/-- C3 (counterexample): the first call for a.example.com cannot open
`sites.yaml` for appending and returns that error with the registry still
empty; the second call, with other values, appends a record, so the text after
the second call differs from the text after the first. -/
theorem upsert_repeats_after_failed_open :
    (upsert sampleOpenFails [] "a.example.com".toList "webapp".toList "3000".toList
      AppTypeNode) =
      { err := some "failed to open sites.yaml: permission denied".toList, text := [] } ∧
    (upsert RegistryIO.ok
        (upsert sampleOpenFails [] "a.example.com".toList "webapp".toList "3000".toList
          AppTypeNode).text
        "a.example.com".toList "webapp2".toList "4000".toList AppTypeNode).text =
      "\n  a.example.com:\n    container: webapp2\n    port: 4000\n    type: node\n".toList ∧
    (upsert RegistryIO.ok
        (upsert sampleOpenFails [] "a.example.com".toList "webapp".toList "3000".toList
          AppTypeNode).text
        "a.example.com".toList "webapp2".toList "4000".toList AppTypeNode).text ≠
      (upsert sampleOpenFails [] "a.example.com".toList "webapp".toList "3000".toList
        AppTypeNode).text := by
  decide

/-- C3 (amended): the registry step is idempotent after a call that returned no
error. For every registry text and hostname, if a call returns no error, a
second call for the same hostname, with any container, port and
classification and whatever its file operations do, leaves the registry text
as the first call left it; so does a second deploy of the same site through
`updateCaddyConfig`. -/
theorem upsert_idempotent_after_success (io₁ io₂ : RegistryIO)
    (content hostname container₁ port₁ container₂ port₂ : Str) (type₁ type₂ : AppType)
    (domainEnv site : Str) :
    ((upsert io₁ content hostname container₁ port₁ type₁).err = none →
      (upsert io₂ (upsert io₁ content hostname container₁ port₁ type₁).text hostname
          container₂ port₂ type₂).text
        = (upsert io₁ content hostname container₁ port₁ type₁).text) ∧
    ((updateCaddyConfigRegistry io₁ domainEnv site type₁ content).err = none →
      (updateCaddyConfigRegistry io₂ domainEnv site type₂
          (updateCaddyConfigRegistry io₁ domainEnv site type₁ content).text).text
        = (updateCaddyConfigRegistry io₁ domainEnv site type₁ content).text) :=
  ⟨upsert_again io₁ io₂ content hostname container₁ port₁ container₂ port₂ type₁ type₂,
    upsert_again io₁ io₂ content (siteHostname domainEnv site) site (detectPort [] type₁) site
      (detectPort [] type₂) type₁ type₂⟩

/-- C3 (amended) at concrete inputs: the first call for a.example.com writes
its record into the empty registry without error; the second call, with other
values, leaves that text as it is. The first deploy of the site `blog` writes
the record of `blog.tomtom.fyi`. -/
theorem upsert_idempotent_after_success_witness :
    (updateCaddyConfigRegistry RegistryIO.ok [] "blog".toList AppTypeNode []) =
      { err := none
        text := "\n  blog.tomtom.fyi:\n    container: blog\n    port: 3000\n    type: node\n".toList } ∧
    siteHostname "example.org".toList "blog".toList = "blog.example.org".toList ∧
    (upsert RegistryIO.ok [] "a.example.com".toList "webapp".toList "3000".toList
      AppTypeNode).err = none ∧
    (upsert RegistryIO.ok [] "a.example.com".toList "webapp".toList "3000".toList
      AppTypeNode).text =
      "\n  a.example.com:\n    container: webapp\n    port: 3000\n    type: node\n".toList ∧
    (upsert RegistryIO.ok
        (upsert RegistryIO.ok [] "a.example.com".toList "webapp".toList "3000".toList
          AppTypeNode).text
        "a.example.com".toList "webapp2".toList "4000".toList AppTypeGo).text =
      (upsert RegistryIO.ok [] "a.example.com".toList "webapp".toList "3000".toList
        AppTypeNode).text :=
  ⟨by decide, by decide, by decide, by decide,
    (upsert_idempotent_after_success RegistryIO.ok RegistryIO.ok [] "a.example.com".toList
      "webapp".toList "3000".toList "webapp2".toList "4000".toList AppTypeNode AppTypeGo
      [] []).1 (by decide)⟩

/-- C4 (counterexample): the hostname a.example.com does not occur in the empty
registry, `sites.yaml` cannot be opened for appending, and the registry step
returns that error with the text unchanged, not followed by a record. -/
theorem upsert_absent_hostname_open_fails :
    ¬ "a.example.com".toList <:+: ([] : Str) ∧
    (upsert sampleOpenFails [] "a.example.com".toList "webapp2".toList "4000".toList
      AppTypeNode) =
      { err := some "failed to open sites.yaml: permission denied".toList, text := [] } ∧
    (upsert sampleOpenFails [] "a.example.com".toList "webapp2".toList "4000".toList
      AppTypeNode).text ≠
      [] ++ "\n  a.example.com:\n    container: webapp2\n    port: 4000\n    type: node\n".toList := by
  refine ⟨?_, by decide, by decide⟩
  rw [← stringsContains_iff]; decide

/-- C4 (amended): the registry step leaves the text unchanged when the hostname
occurs in it as a substring. Otherwise, when it returns no error, which it
does when reading, opening and writing `sites.yaml` succeed, the new text is
the old text followed by exactly one record (hostname line, container, port,
type); when it returns an error the new text is the old text followed by the
part of the record that was written, if any. In every case the old text is a
prefix of the new text. A text containing a.example.com is left unchanged by
the call for (a.example.com, webapp2, 4000, node). -/
theorem upsert_noop_or_append (io : RegistryIO) (content hostname containerName port : Str)
    (appType : AppType) :
    (hostname <:+: content →
      (upsert io content hostname containerName port appType).text = content) ∧
    (¬ hostname <:+: content →
      (upsert io content hostname containerName port appType).err = none →
      (upsert io content hostname containerName port appType).text =
        content ++ ("\n  ".toList ++ hostname ++ ":\n    container: ".toList ++ containerName ++
          "\n    port: ".toList ++ port ++ "\n    type: ".toList ++ appType ++ "\n".toList)) ∧
    (io.readErr = none → io.openErr = none → io.writeErr = none →
      (upsert io content hostname containerName port appType).err = none) ∧
    (∃ n, (upsert io content hostname containerName port appType).text =
        content ++ ("\n  ".toList ++ hostname ++ ":\n    container: ".toList ++ containerName ++
          "\n    port: ".toList ++ port ++ "\n    type: ".toList ++ appType ++
          "\n".toList).take n) ∧
    content <+: (upsert io content hostname containerName port appType).text ∧
    ("a.example.com".toList <:+: content →
      (upsert io content "a.example.com".toList "webapp2".toList "4000".toList AppTypeNode).text
        = content) := by
  refine ⟨upsert_keeps_text io _ _ _ _ _, ?_, ?_, ?_, ?_, upsert_keeps_text io _ _ _ _ _⟩
  · intro hn hok
    exact upsert_appends io _ _ _ _ _ hn hok
  · intro h1 h2 h3
    unfold upsert
    rw [h1, h2, h3]
    simp only []
    split <;> rfl
  · exact upsert_part io _ _ _ _ _
  · obtain ⟨n, hn⟩ := upsert_part io content hostname containerName port appType
    rw [hn]
    exact List.prefix_append _ _

/-- C4 (amended) at concrete inputs: a registry already holding the record of
a.example.com is left unchanged, and an empty registry gets the one record
when the file operations succeed. -/
theorem upsert_noop_or_append_witness :
    "a.example.com".toList <:+: sampleRegistry ∧
    (upsert RegistryIO.ok sampleRegistry "a.example.com".toList "webapp2".toList "4000".toList
      AppTypeNode).text = sampleRegistry ∧
    ¬ "a.example.com".toList <:+: ([] : Str) ∧
    (upsert RegistryIO.ok [] "a.example.com".toList "webapp2".toList "4000".toList
      AppTypeNode).err = none ∧
    (upsert RegistryIO.ok [] "a.example.com".toList "webapp2".toList "4000".toList
      AppTypeNode).text =
      "\n  a.example.com:\n    container: webapp2\n    port: 4000\n    type: node\n".toList := by
  have hin : "a.example.com".toList <:+: sampleRegistry :=
    (stringsContains_iff _ _).mp (by decide)
  have hout : ¬ "a.example.com".toList <:+: ([] : Str) := by
    rw [← stringsContains_iff]; decide
  have h := upsert_noop_or_append RegistryIO.ok sampleRegistry "a.example.com".toList
    "webapp2".toList "4000".toList AppTypeNode
  have h2 := upsert_noop_or_append RegistryIO.ok [] "a.example.com".toList "webapp2".toList
    "4000".toList AppTypeNode
  have hok := h2.2.2.1 rfl rfl rfl
  exact ⟨hin, h.1 hin, hout, hok, by simpa using h2.2.1 hout hok⟩

/-! ## The classifier -/

theorem dynamic_ne_static (appType : AppType) (h : appType.dynamic) :
    appType ≠ AppTypeStatic := by
  rcases h with h | h | h <;> rw [h] <;> decide

/-! ## The lifecycle claims -/

/-- C2: in a dynamic deploy where the build and the start of the transitional
container succeed and the health probe fails or does not print `true`,
`deployDocker` returns the error `health check failed`, no command stops,
removes or starts the canonical name, and every observation of the canonical
container that only such commands can change (existence, identity, running
state, image) is the same after the call as before. -/
theorem failed_probe_keeps_canonical {σ ι : Type} (E : Engine σ) (view : σ → Str → ι)
    (hframe : FrameLaw E view) (tree : WorkTree) (containerName deployDir : Str)
    (appType : AppType) (s0 : σ) (_hdyn : appType.dynamic)
    (_hbuild : (deployDocker E tree containerName deployDir appType s0).buildSucceeded = true)
    (_hstage : (deployDocker E tree containerName deployDir appType s0).startSucceeded
      (tempNameOf containerName) = true)
    (hprobe : (deployDocker E tree containerName deployDir appType s0).probeFailed
      (tempNameOf containerName) = true) :
    (deployDocker E tree containerName deployDir appType s0).error = some .healthCheck ∧
    DeployError.message .healthCheck = "health check failed".toList ∧
    (deployDocker E tree containerName deployDir appType s0).untouched containerName ∧
    view (deployDocker E tree containerName deployDir appType s0).final containerName
      = view s0 containerName := by
  have h := probeFailed_trace E tree containerName deployDir appType s0 hprobe
  have hc := deployDocker_chained E tree containerName deployDir appType s0
  refine ⟨h.1, rfl, h.2, ?_⟩
  rw [hc.2]
  exact frame_preserved E view hframe containerName s0 _ hc.1 h.2

/-- C2 on the Docker model: the new container of `blog` has exited when it is
probed; the deploy fails with the health-check error and the running container
`blog` (identity 7, image 3) is as before. -/
theorem failed_probe_keeps_canonical_witness :
    (deployDocker docker sampleNodeTree sampleSite sampleDir AppTypeNode sampleUnhealthy).error
      = some .healthCheck ∧
    sampleUnhealthy.named sampleSite =
      [{ name := sampleSite, id := 7, image := 3, running := true }] ∧
    (deployDocker docker sampleNodeTree sampleSite sampleDir AppTypeNode
      sampleUnhealthy).final.named sampleSite =
      [{ name := sampleSite, id := 7, image := 3, running := true }] := by
  have h := failed_probe_keeps_canonical docker Docker.named docker_frame sampleNodeTree
    sampleSite sampleDir AppTypeNode sampleUnhealthy (Or.inl rfl) (by decide) (by decide)
    (by decide)
  exact ⟨h.1, by decide, h.2.2.2.trans (by decide)⟩

/-- C8: in a dynamic deploy where the image build fails, or the build succeeds
and the start of the transitional container fails, `deployDocker` returns an
error (the build error, respectively the run error), no command stops, removes
or starts the canonical name, and every observation of the canonical container
that only such commands can change is the same after the call as before. -/
theorem failed_build_or_stage_keeps_canonical {σ ι : Type} (E : Engine σ)
    (view : σ → Str → ι) (hframe : FrameLaw E view) (tree : WorkTree)
    (containerName deployDir : Str) (appType : AppType) (s0 : σ) (hdyn : appType.dynamic)
    (h : (deployDocker E tree containerName deployDir appType s0).buildFailed = true ∨
      ((deployDocker E tree containerName deployDir appType s0).buildSucceeded = true ∧
        (deployDocker E tree containerName deployDir appType s0).startFailed
          (tempNameOf containerName) = true)) :
    (deployDocker E tree containerName deployDir appType s0).error ≠ none ∧
    ((∃ err out, (deployDocker E tree containerName deployDir appType s0).error
        = some (.build err out)) ∨
      (∃ err out, (deployDocker E tree containerName deployDir appType s0).error
        = some (.run err out))) ∧
    (deployDocker E tree containerName deployDir appType s0).untouched containerName ∧
    view (deployDocker E tree containerName deployDir appType s0).final containerName
      = view s0 containerName := by
  have ht := abort_trace E tree containerName deployDir appType s0
    (dynamic_ne_static appType hdyn) h
  have hc := deployDocker_chained E tree containerName deployDir appType s0
  refine ⟨?_, ht.1, ht.2, ?_⟩
  · rcases ht.1 with ⟨e, o, he⟩ | ⟨e, o, he⟩ <;> rw [he] <;> exact Option.some_ne_none _
  · rw [hc.2]
    exact frame_preserved E view hframe containerName s0 _ hc.1 ht.2

/-- C8 on the Docker model: the build of `blog` fails; the deploy returns the
build error and the running container `blog` (identity 7, image 3) is as
before. -/
theorem failed_build_or_stage_keeps_canonical_witness :
    (deployDocker docker sampleNodeTree sampleSite sampleDir AppTypeNode sampleBuildFails).error
      = some (.build "exit status 1".toList "build failed".toList) ∧
    (deployDocker docker sampleNodeTree sampleSite sampleDir AppTypeNode
      sampleBuildFails).final.named sampleSite =
      [{ name := sampleSite, id := 7, image := 3, running := true }] := by
  have h := failed_build_or_stage_keeps_canonical docker Docker.named docker_frame
    sampleNodeTree sampleSite sampleDir AppTypeNode sampleBuildFails (Or.inl rfl)
    (Or.inl (by decide))
  exact ⟨by decide, h.2.2.2.trans (by decide)⟩

/-- C6 (counterexample): a node deploy from a working tree in which the build
descriptor is absent and cannot be written returns the error of
`generateDockerfile` and runs no image build. -/
theorem dynamic_deploy_without_build :
    AppTypeNode.dynamic ∧
    (deployDocker docker sampleReadOnlyTree sampleSite sampleDir AppTypeNode
      sampleHealthy).error =
      some (.dockerfile "failed to write Dockerfile: permission denied".toList) ∧
    (deployDocker docker sampleReadOnlyTree sampleSite sampleDir AppTypeNode
      sampleHealthy).events.map (fun e => e.cmd) = [.inspect sampleSite] ∧
    ¬ ∃ e ∈ (deployDocker docker sampleReadOnlyTree sampleSite sampleDir AppTypeNode
      sampleHealthy).events, e.cmd.isBuild = true := by
  refine ⟨Or.inl rfl, by decide, by decide, ?_⟩
  rintro ⟨e, he, hb⟩
  have hall : ∀ c ∈ (deployDocker docker sampleReadOnlyTree sampleSite sampleDir AppTypeNode
      sampleHealthy).events.map (fun e => e.cmd), c.isBuild = false := by decide
  have := hall e.cmd (List.mem_map_of_mem _ he)
  rw [hb] at this
  exact Bool.noConfusion this

/-- C6 (amended): with the static classification `deployDocker` runs no image
build. With a dynamic classification it runs the image build (of the tag
`vibe-deploy-<site>:latest` from the deploy directory) whenever
`generateDockerfile` returns no error; when `generateDockerfile` returns an
error, `deployDocker` returns that error and runs no image build. -/
theorem build_step_by_classification {σ : Type} (E : Engine σ) (tree : WorkTree)
    (containerName deployDir : Str) (s0 : σ) :
    (∀ e ∈ (deployDocker E tree containerName deployDir AppTypeStatic s0).events,
      e.cmd.isBuild = false) ∧
    (∀ appType : AppType, appType.dynamic →
      (∀ written, generateDockerfile tree appType = .ok written →
        ∃ e ∈ (deployDocker E tree containerName deployDir appType s0).events,
          e.cmd = .build (imageNameOf containerName) deployDir) ∧
      (∀ msg, generateDockerfile tree appType = .error msg →
        (deployDocker E tree containerName deployDir appType s0).error
          = some (.dockerfile msg) ∧
        ∀ e ∈ (deployDocker E tree containerName deployDir appType s0).events,
          e.cmd.isBuild = false)) :=
  ⟨static_trace E tree containerName deployDir s0,
    fun appType hdyn =>
      dynamic_trace E tree containerName deployDir appType s0 (dynamic_ne_static appType hdyn)⟩

/-- C6 (amended) on the Docker model: a node deploy whose build descriptor is
written runs the image build of `vibe-deploy-blog:latest`. -/
theorem build_step_by_classification_witness :
    AppTypeNode.dynamic ∧
    (∃ written, generateDockerfile sampleNodeTree AppTypeNode = .ok written) ∧
    ∃ e ∈ (deployDocker docker sampleNodeTree sampleSite sampleDir AppTypeNode
        sampleHealthy).events,
      e.cmd = .build "vibe-deploy-blog:latest".toList sampleDir := by
  have hw : generateDockerfile sampleNodeTree AppTypeNode
      = .ok (dockerfileContent AppTypeNode) := by rfl
  have h := ((build_step_by_classification docker sampleNodeTree sampleSite sampleDir
    sampleHealthy).2 AppTypeNode (Or.inl rfl)).1 _ hw
  exact ⟨Or.inl rfl, ⟨_, hw⟩, h⟩

/-- The exits of a dynamic deploy that come before the stage do not clean up:
on the Docker model, a deploy of `blog` whose build fails returns with the
stale `blog-new` still there. -/
theorem stale_transitional_survives_build_failure :
    (deployDocker docker sampleNodeTree sampleSite sampleDir AppTypeNode sampleBuildFails).error
      = some (.build "exit status 1".toList "build failed".toList) ∧
    (deployDocker docker sampleNodeTree sampleSite sampleDir AppTypeNode
      sampleBuildFails).final.named (tempNameOf sampleSite) =
      [{ name := "blog-new".toList, id := 8, image := 3, running := false }] := by
  decide

/-- The stage failure exit does not clean up either: on the Docker model, a
deploy of `blog` whose transitional container is created and fails to start
returns the run error with that `blog-new` left behind. -/
theorem transitional_left_after_failed_stage :
    (deployDocker docker sampleNodeTree sampleSite sampleDir AppTypeNode sampleStageFails).error
      = some (.run "exit status 1".toList
          "Error response from daemon: failed to start".toList) ∧
    (deployDocker docker sampleNodeTree sampleSite sampleDir AppTypeNode
      sampleStageFails).final.named (tempNameOf sampleSite) =
      [{ name := "blog-new".toList, id := 10, image := 9, running := false }] := by
  decide

/-- C9: when `deployDocker` returns success on the Docker model, exactly one
container bears the canonical name and it was created in this deploy; a
canonical container that existed before is no longer among the containers,
and was stopped and removed by the call; for a dynamic classification the
call built the image `vibe-deploy-<site>:latest` and then started the
canonical container from that tag as its last command, both with success, and
the container's image is the one that tag names, an image that did not exist
before the deploy. -/
theorem success_gives_one_canonical (tree : WorkTree) (containerName deployDir : Str)
    (appType : AppType) (d : Docker) (hwf : d.WellFormed)
    (hok : (deployDocker docker tree containerName deployDir appType d).error = none) :
    ∃ c, (deployDocker docker tree containerName deployDir appType d).final.named containerName
        = [c] ∧
      d.nextId ≤ c.id ∧
      (∀ c0 ∈ d.containers, c0.name = containerName →
        c0 ∉ (deployDocker docker tree containerName deployDir appType d).final.containers) ∧
      (d.named containerName ≠ [] →
        (∃ e ∈ (deployDocker docker tree containerName deployDir appType d).events,
          e.cmd = .stop containerName) ∧
        (∃ e ∈ (deployDocker docker tree containerName deployDir appType d).events,
          e.cmd = .rm containerName)) ∧
      (appType.dynamic →
        (deployDocker docker tree containerName deployDir appType d).buildSucceeded = true ∧
        (∃ e ∈ (deployDocker docker tree containerName deployDir appType d).events,
          e.cmd = .build ("vibe-deploy-".toList ++ containerName ++ ":latest".toList) deployDir ∧
          e.resp.err = none) ∧
        (∃ e ∈ (deployDocker docker tree containerName deployDir appType d).events,
          e.cmd = .run containerName ("vibe-deploy-".toList ++ containerName ++ ":latest".toList) ∧
          e.resp.err = none ∧
          e.after = (deployDocker docker tree containerName deployDir appType d).final) ∧
        (deployDocker docker tree containerName deployDir appType d).final.imageOf
          ("vibe-deploy-".toList ++ containerName ++ ":latest".toList) = some c.image ∧
        ∀ t ∈ d.images, t.2 ≠ c.image) := by
  have hgone : ∀ (fin : Docker) (c : Container), fin.named containerName = [c] →
      d.nextId ≤ c.id → ∀ c0 ∈ d.containers, c0.name = containerName → c0 ∉ fin.containers := by
    intro fin c hc hid c0 hc0 hname hmem
    have : c0 ∈ fin.named containerName := by
      simp only [Docker.named]
      exact List.mem_filter.mpr ⟨hmem, by simpa using hname⟩
    rw [hc, List.mem_singleton] at this
    have hlt := hwf.1 c0 hc0
    rw [this] at hlt
    omega
  by_cases hst : appType = AppTypeStatic
  · subst hst
    obtain ⟨pre, hrun, hfin, hdisj⟩ := success_static docker tree containerName deployDir d hok
    rw [docker_exec] at hrun hfin
    obtain ⟨c, hc, hid⟩ := runStatic_ok (runCmds docker pre d) containerName _ hrun
    have hle : d.nextId ≤ c.id := by rw [hid]; exact runCmds_nextId_le pre d
    have hnamed : (deployDocker docker tree containerName deployDir AppTypeStatic d).final.named
        containerName = [c] := by rw [hfin]; exact hc
    refine ⟨c, hnamed, hle, hgone _ c hnamed hle, ?_, ?_⟩
    · intro hn
      rcases hdisj with hno | hev
      · exfalso
        have hsame := runCmds_named pre d containerName hno
        exact start_conflict (.runStatic containerName deployDir) (runCmds docker pre d)
          containerName (by rw [hsame]; exact hn) (Or.inr ⟨_, rfl⟩) hrun
      · exact hev
    · intro hdyn
      exact absurd rfl (dynamic_ne_static _ hdyn)
  · obtain ⟨mid, hmid, hbuild, hrun, hfin, hbe, hre, hdisj⟩ :=
      success_dynamic docker tree containerName deployDir appType d hst hok
    rw [docker_exec] at hbuild hrun hfin
    have himg := build_ok (dockerExec (.inspect containerName) d).2 _ _ hbuild
    have himg7 := runCmds_images mid
      (dockerExec (.build (imageNameOf containerName) deployDir)
        (dockerExec (.inspect containerName) d).2).2 hmid
    have hn1 := exec_nextId_le (.inspect containerName) d
    have hn2 := exec_nextId_le (.build (imageNameOf containerName) deployDir)
      (dockerExec (.inspect containerName) d).2
    have hn7 := runCmds_nextId_le mid
      (dockerExec (.build (imageNameOf containerName) deployDir)
        (dockerExec (.inspect containerName) d).2).2
    obtain ⟨c, hc, hid, hci, hfi⟩ := run_ok _ containerName (imageNameOf containerName) hrun
    have htag := imageOf_head _ (imageNameOf containerName) _ _ (himg7.trans himg)
    have hcimg : c.image = (dockerExec (.inspect containerName) d).2.nextId := by
      rw [htag] at hci
      exact (Option.some.inj hci).symm
    have hle : d.nextId ≤ c.id := by rw [hid]; omega
    have hnamed : (deployDocker docker tree containerName deployDir appType d).final.named
        containerName = [c] := by rw [hfin]; exact hc
    refine ⟨c, hnamed, hle, hgone _ c hnamed hle, ?_, ?_⟩
    · intro hn
      rcases hdisj with hno | hev
      · exfalso
        have h7 := runCmds_named mid
          (dockerExec (.build (imageNameOf containerName) deployDir)
            (dockerExec (.inspect containerName) d).2).2 containerName hno
        have hb := docker_frame (.build (imageNameOf containerName) deployDir)
          (dockerExec (.inspect containerName) d).2 containerName (by simp [Cmd.target])
        have hi := docker_frame (.inspect containerName) d containerName (by simp [Cmd.target])
        rw [docker_exec] at hb hi
        exact start_conflict (.run containerName (imageNameOf containerName)) _
          containerName (by rw [h7, hb, hi]; exact hn) (Or.inl ⟨_, rfl⟩) hrun
      · exact hev
    · intro _
      refine ⟨?_, hbe, hre, ?_, ?_⟩
      · obtain ⟨e, he, hcmd, herr⟩ := hbe
        simp only [Run.buildSucceeded, List.any_eq_true]
        exact ⟨e, he, by simp [hcmd, herr, Cmd.isBuild]⟩
      · rw [hfin]
        have : ∀ a b : Docker, a.images = b.images → a.imageOf (imageNameOf containerName)
            = b.imageOf (imageNameOf containerName) := by
          intro a b hab; simp only [Docker.imageOf, hab]
        exact (this _ _ hfi).trans hci
      · intro t ht
        have := hwf.2 t ht
        omega

/-- C9 on the Docker model: the node deploy of `blog` succeeds; the one
container `blog` afterwards is new and comes from the image the tag
`vibe-deploy-blog:latest` got from the build, and the old container `blog`
(identity 7) is gone. -/
theorem success_gives_one_canonical_witness :
    sampleHealthy.WellFormed ∧
    sampleHealthy.named "blog".toList =
      [{ name := "blog".toList, id := 7, image := 3, running := true }] ∧
    (deployDocker docker sampleNodeTree sampleSite sampleDir AppTypeNode sampleHealthy).error
      = none ∧
    (deployDocker docker sampleNodeTree sampleSite sampleDir AppTypeNode
      sampleHealthy).final.containers =
      [{ name := "blog".toList, id := 11, image := 9, running := true }] ∧
    sampleHealthy.imageOf "vibe-deploy-blog:latest".toList = some 3 ∧
    (deployDocker docker sampleNodeTree sampleSite sampleDir AppTypeNode
      sampleHealthy).final.imageOf "vibe-deploy-blog:latest".toList = some 9 ∧
    ∃ c, (deployDocker docker sampleNodeTree sampleSite sampleDir AppTypeNode
        sampleHealthy).final.named sampleSite = [c] ∧ sampleHealthy.nextId ≤ c.id ∧
      (deployDocker docker sampleNodeTree sampleSite sampleDir AppTypeNode
        sampleHealthy).final.imageOf ("vibe-deploy-".toList ++ sampleSite ++ ":latest".toList)
        = some c.image := by
  have hwf : sampleHealthy.WellFormed := ⟨by decide, by decide⟩
  obtain ⟨c, hc, hid, -, -, hdyn⟩ := success_gives_one_canonical sampleNodeTree sampleSite
    sampleDir AppTypeNode sampleHealthy hwf (by decide)
  exact ⟨hwf, by decide, by decide, by decide, by decide, by decide, c, hc, hid,
    (hdyn (Or.inl rfl)).2.2.2.1⟩

end VibeDeploy
